import Mathlib

/-!
# Verification of the BrainDump entry store (src/braindump.py)

Shallow embedding of the persistence/query layer of the BrainDump
application.  The database (a single SQLite table `entries`) is modelled
as a list of rows in rowid (insertion) order together with the next
AUTOINCREMENT id; the attachment directory is modelled as an association
list from absolute paths to file contents (abstracted as `Nat`), where a
write shadows earlier bindings for the same path.

Python string operations are modelled on `List Char`:
* `str.strip()`  becomes `pyStrip` (drop ASCII whitespace at both ends);
* `str.lower()`  becomes `pyLower` (ASCII case folding; the claims and
  counterexamples only exercise ASCII data);
* `s[:50]`       becomes `strTake 50`;
* `len(s)`       becomes `strLen`;
* `content.split('\n')[0]` becomes `firstLine` (prefix before the first
  newline);
* `s.replace('\r', '')` becomes `stripCR`.

SQLite specifics modelled:
* `LIKE` patterns (`%`, `_` wildcards, ASCII-case-insensitive) via
  `likeMatch`;
* `ORDER BY timestamp DESC` via `sortTsDesc`, a stable sort over the
  table-scan (rowid-ascending) order, matching SQLite's external merge
  sorter over a full table scan; timestamps are `Nat` (the stored
  `YYYY-MM-DD HH:MM:SS` strings compare in chronological order, with
  one-second resolution).
-/

/-! ## Python string primitives -/

/-- ASCII whitespace characters removed by Python's `str.strip()`. -/
def isPySpace (c : Char) : Bool :=
  c == ' ' || c == '\t' || c == '\n' || c == '\r' || c == '\x0b' || c == '\x0c'

/-- Python `str.strip()`: remove leading and trailing whitespace. -/
def pyStrip (s : String) : String :=
  ⟨((s.data.dropWhile isPySpace).reverse.dropWhile isPySpace).reverse⟩

/-- ASCII lowercase of one character (model of `str.lower()` per char). -/
def lowerChar (c : Char) : Char :=
  if 65 ≤ c.toNat ∧ c.toNat ≤ 90 then Char.ofNat (c.toNat + 32) else c

/-- Python `str.lower()` (ASCII fragment). -/
def pyLower (s : String) : String := ⟨s.data.map lowerChar⟩

/-- Python `s[:n]`. -/
def strTake (n : Nat) (s : String) : String := ⟨s.data.take n⟩

/-- Python `len(s)` (number of code points). -/
def strLen (s : String) : Nat := s.data.length

/-- Python `'\n' in s`. -/
def strHasNL (s : String) : Bool := s.data.contains '\n'

/-- `content.split('\n')[0]`: the prefix of `s` before its first newline. -/
def firstLine (s : String) : String := ⟨s.data.takeWhile (fun c => c ≠ '\n')⟩

/-- `s.replace('\r', '')`: remove every carriage return. -/
def stripCR (s : String) : String := ⟨s.data.filter (fun c => c ≠ '\r')⟩

/-! ## SQLite LIKE matching

`likeMatchF` is a fuelled matcher for SQLite `LIKE` patterns over
already-case-folded character lists: `%` matches any (possibly empty)
sequence, `_` matches exactly one character, anything else matches
itself.  Each step consumes at least one character of pattern or text,
so `pattern.length + text.length + 1` fuel always suffices. -/

def likeMatchF : Nat → List Char → List Char → Bool
  | 0, _, _ => false
  | _ + 1, [], [] => true
  | _ + 1, [], _ :: _ => false
  | f + 1, '%' :: ps, [] => likeMatchF f ps []
  | f + 1, '%' :: ps, c :: ts =>
      likeMatchF f ps (c :: ts) || likeMatchF f ('%' :: ps) ts
  | _ + 1, '_' :: _, [] => false
  | f + 1, '_' :: ps, _ :: ts => likeMatchF f ps ts
  | _ + 1, _ :: _, [] => false
  | f + 1, p :: ps, c :: ts => (p == c) && likeMatchF f ps ts

/-- SQLite `text LIKE pattern` (ASCII-case-insensitive, no ESCAPE). -/
def sqlLike (pattern target : String) : Bool :=
  likeMatchF ((pyLower pattern).data.length + (pyLower target).data.length + 1)
    (pyLower pattern).data (pyLower target).data

/-- `column LIKE '%term%'` as built by `load_entries`. -/
def likeContains (term target : String) : Bool :=
  sqlLike ("%" ++ term ++ "%") target

/-! ## Data model -/

/-- The `type` column: `'note'` or `'file'`. -/
inductive Kind where
  | note : Kind
  | file : Kind
deriving DecidableEq

/-- One row of the `entries` table.  `filepath` and `description` are
nullable columns; `timestamp` is the `DATETIME DEFAULT CURRENT_TIMESTAMP`
creation time in seconds. -/
structure Entry where
  id : Nat
  kind : Kind
  content : String
  tags : String
  filepath : Option String
  timestamp : Nat
  description : Option String
deriving DecidableEq

/-- The database: rows in rowid (insertion) order, plus the next
AUTOINCREMENT id.  SQLite scans rows in this order. -/
structure DB where
  rows : List Entry
  nextId : Nat
deriving DecidableEq

/-- The empty database created by `setup_database` (AUTOINCREMENT ids
start at 1). -/
def dbEmpty : DB := { rows := [], nextId := 1 }

/-- The attachment directory: association list from absolute path to
file bytes (abstracted as `Nat`).  A write shadows older bindings. -/
abbrev FS := List (String × Nat)

/-- `os.path.exists` / content lookup: first binding wins. -/
def fsLookup (fs : FS) (p : String) : Option Nat :=
  (fs.find? (fun kv => kv.1 == p)).map (fun kv => kv.2)

/-- `os.path.exists(p)`. -/
def fsExists (fs : FS) (p : String) : Bool := (fsLookup fs p).isSome

/-- Writing file contents (`shutil.copy2` / `im.save` overwrite any
existing file at the target path). -/
def fsWrite (fs : FS) (p : String) (b : Nat) : FS := (p, b) :: fs

/-- `os.remove(p)`. -/
def fsRemove (fs : FS) (p : String) : FS := fs.filter (fun kv => kv.1 ≠ p)

/-- `FILES_DIR = os.path.join(os.path.expanduser('~'), 'BrainDumpApp', 'files')`. -/
def FILES_DIR : String := "/home/user/BrainDumpApp/files"

/-- `os.path.join(dir, name)`. -/
def joinPath (dir name : String) : String := dir ++ "/" ++ name

/-- `os.path.splitext(name)`: split off the extension at the last dot,
unless every character before that dot is itself a dot (so `".png"` and
`"..png"` do not split). -/
def splitext (name : String) : String × String :=
  let rev := name.data.reverse
  let extRev := rev.takeWhile (fun c => c ≠ '.')
  match rev.dropWhile (fun c => c ≠ '.') with
  | [] => (name, "")
  | _ :: baseRev =>
      if baseRev.all (fun c => c == '.') then (name, "")
      else (⟨baseRev.reverse⟩, ⟨'.' :: extRev.reverse⟩)

/-! ## Store operations (from src/braindump.py) -/

/-- `add_note` (braindump.py:356-378).  `contentRaw`/`tagsRaw` are the
raw widget strings; the result id is `none` when the empty-note
validation fails (warning shown, no row written). -/
def add_note (db : DB) (now : Nat) (contentRaw tagsRaw : String) :
    DB × Option Nat :=
  let content := pyStrip contentRaw
  let tags := pyLower (pyStrip tagsRaw)
  if content = "" then (db, none)
  else
    ({ rows := db.rows ++
        [{ id := db.nextId, kind := Kind.note, content := content,
           tags := tags, filepath := none, timestamp := now,
           description := none }],
       nextId := db.nextId + 1 },
     some db.nextId)

/-- `copy_file_to_storage` (braindump.py:514-528): copy `srcBytes` under
`filename` into `FILES_DIR`; if that path already exists, append the
current `%Y%m%d%H%M%S` timestamp `ts` to the base name.  Returns the
updated directory and the stored path. -/
def copy_file_to_storage (fs : FS) (srcBytes : Nat) (filename ts : String) :
    FS × String :=
  let new_filepath := joinPath FILES_DIR filename
  let new_filepath :=
    if fsExists fs new_filepath then
      let be := splitext filename
      joinPath FILES_DIR (be.1 ++ "_" ++ ts ++ be.2)
    else new_filepath
  (fsWrite fs new_filepath srcBytes, new_filepath)

/-- `add_file` (braindump.py:380-406), after the file dialog: `srcName`
is `os.path.basename(filepath)`, `ts` the collision timestamp string,
`now` the row timestamp.  (The clipboard image-file-path branch of
`paste_from_clipboard`, braindump.py:457-477, performs these same
statements.) -/
def add_file (db : DB) (fs : FS) (now : Nat) (ts : String)
    (srcName : String) (srcBytes : Nat) (tagsRaw descRaw : String) :
    DB × FS × Option Nat :=
  let tags := pyLower (pyStrip tagsRaw)
  let description := pyStrip descRaw
  let res := copy_file_to_storage fs srcBytes srcName ts
  ({ rows := db.rows ++
      [{ id := db.nextId, kind := Kind.file, content := srcName,
         tags := tags, filepath := some res.2, timestamp := now,
         description := some description }],
     nextId := db.nextId + 1 },
   res.1, some db.nextId)

/-- `save_pasted_image_data` (braindump.py:485-511): store raw clipboard
image bytes at `FILES_DIR/paste_<ts>.png` (no collision check) and
insert a `file` row referencing that path. -/
def save_pasted_image_data (db : DB) (fs : FS) (now : Nat) (ts : String)
    (imgBytes : Nat) (tagsRaw descRaw : String) : DB × FS :=
  let tags := pyLower (pyStrip tagsRaw)
  let description := pyStrip descRaw
  let filename := "paste_" ++ ts ++ ".png"
  let new_filepath := joinPath FILES_DIR filename
  let fs2 := fsWrite fs new_filepath imgBytes
  ({ rows := db.rows ++
      [{ id := db.nextId, kind := Kind.file, content := filename,
         tags := tags, filepath := some new_filepath, timestamp := now,
         description := some description }],
     nextId := db.nextId + 1 },
   fs2)

/-- `SELECT ... FROM entries WHERE id = ?` followed by `fetchone()`
(braindump.py:587-588 and 769-770). -/
def get_entry (db : DB) (id : Nat) : Option Entry :=
  db.rows.find? (fun e => e.id == id)

/-- Observable outcome of the selection callback: either an entry is
displayed, or nothing at all happens, or an error dialog is shown. -/
inductive SelectOutcome where
  | displayed : Entry → SelectOutcome
  | silentNoop : SelectOutcome
  | errorShown : String → SelectOutcome
deriving DecidableEq

/-- `on_entry_select` (braindump.py:578-592): fetch the row and display
it; when `fetchone()` returns `None` the `if entry:` guard simply falls
through, so nothing happens. -/
def on_entry_select (db : DB) (id : Nat) : SelectOutcome :=
  match get_entry db id with
  | some e => SelectOutcome.displayed e
  | none => SelectOutcome.silentNoop

/-- `delete_entry` (braindump.py:763-788), after the user confirms.
`osRemoveOk` models whether `os.remove` succeeds.  Returns the new
database, the new attachment directory, and whether the file-deletion
error dialog was shown; the `DELETE FROM entries` runs in every case. -/
def delete_entry (db : DB) (fs : FS) (id : Nat) (osRemoveOk : Bool) :
    DB × FS × Bool :=
  let fsErr :=
    match get_entry db id with
    | some e =>
        match e.kind, e.filepath with
        | Kind.file, some p =>
            if fsExists fs p then
              if osRemoveOk then (fsRemove fs p, false) else (fs, true)
            else (fs, false)
        | _, _ => (fs, false)
    | none => (fs, false)
  ({ rows := db.rows.filter (fun e => e.id ≠ id), nextId := db.nextId },
   fsErr.1, fsErr.2)

/-! ## `load_entries` (braindump.py:530-576) -/

/-- The WHERE clause built by `load_entries` for one row, given the
already-stripped search term and the stripped-and-lowercased tag filter:
`(content LIKE '%s%' OR description LIKE '%s%') AND tags LIKE '%t%'`,
each conjunct present only when its term is non-empty.  A NULL
`description` makes its `LIKE` evaluate to NULL, i.e. no match. -/
def entryMatches (search tagf : String) (e : Entry) : Bool :=
  (search == "" || likeContains search e.content ||
    (match e.description with
     | some d => likeContains search d
     | none => false)) &&
  (tagf == "" || likeContains tagf e.tags)

/-- Stable insertion of `x` into a timestamp-descending list: `x` goes
before the first element whose timestamp is not greater than its own. -/
def insertTs (x : Entry) : List Entry → List Entry
  | [] => [x]
  | y :: ys =>
      if x.timestamp < y.timestamp then y :: insertTs x ys
      else x :: y :: ys

/-- `ORDER BY timestamp DESC`: stable sort, descending by timestamp,
over the table-scan (rowid-ascending) order. -/
def sortTsDesc : List Entry → List Entry
  | [] => []
  | x :: xs => insertTs x (sortTsDesc xs)

/-- The rows returned by the `load_entries` query, in result order.
The raw widget strings are stripped (and the tag filter lowercased)
before being bound into the query, braindump.py:532-534. -/
def load_entries_rows (db : DB) (searchRaw tagRaw : String) : List Entry :=
  let search := pyStrip searchRaw
  let tagf := pyLower (pyStrip tagRaw)
  sortTsDesc (db.rows.filter (fun e => entryMatches search tagf e))

/-- One row of the listing Treeview: iid, type, timestamp and computed
preview string. -/
structure Summary where
  id : Nat
  kind : Kind
  date : Nat
  preview : String
deriving DecidableEq

/-- The preview computation of `load_entries` (braindump.py:566-571):
notes show `content.split('\n')[0].replace('\r', '')[:50]` plus an
ellipsis when the content is longer than 50 characters or contains a
newline; files show the stored base filename (the `content` column). -/
def makePreview (e : Entry) : String :=
  match e.kind with
  | Kind.note =>
      let p := strTake 50 (stripCR (firstLine e.content))
      if 50 < strLen e.content ∨ strHasNL e.content = true then p ++ "..."
      else p
  | Kind.file => e.content

/-- `load_entries`: the summaries inserted into the Treeview, in order. -/
def load_entries (db : DB) (searchRaw tagRaw : String) : List Summary :=
  (load_entries_rows db searchRaw tagRaw).map
    (fun e => { id := e.id, kind := e.kind, date := e.timestamp,
                preview := makePreview e })

/-! ## One-step transition relation over (database, attachment dir)

Every mutating operation of the application: saving a note, adding a
file (by dialog or by clipboard image-file path), saving pasted image
data, and deleting an entry. -/

inductive Step : DB × FS → DB × FS → Prop
  | addNote (db : DB) (fs : FS) (now : Nat) (c t : String) :
      Step (db, fs) ((add_note db now c t).1, fs)
  | addFile (db : DB) (fs : FS) (now : Nat) (ts name : String) (b : Nat)
      (tg d : String) :
      Step (db, fs)
        ((add_file db fs now ts name b tg d).1,
         (add_file db fs now ts name b tg d).2.1)
  | pasteImage (db : DB) (fs : FS) (now : Nat) (ts : String) (b : Nat)
      (tg d : String) :
      Step (db, fs)
        ((save_pasted_image_data db fs now ts b tg d).1,
         (save_pasted_image_data db fs now ts b tg d).2)
  | del (db : DB) (fs : FS) (id : Nat) (ok : Bool) :
      Step (db, fs)
        ((delete_entry db fs id ok).1, (delete_entry db fs id ok).2.1)

/-- C9's invariant for one row: file rows point into the managed
attachment directory, note rows have a NULL filepath. -/
def entryPathInv (e : Entry) : Prop :=
  (e.kind = Kind.file → ∃ n, e.filepath = some (joinPath FILES_DIR n)) ∧
  (e.kind = Kind.note → e.filepath = none)

/-- C9's invariant for a database state. -/
def pathInv (db : DB) : Prop := ∀ e ∈ db.rows, entryPathInv e

/-! ## Claim-side definitions and concrete scenarios

Spec-side notions used to state claims, and the concrete databases,
directories and entries used in counterexamples and witnesses. -/

/-- Result order of the listing: strictly older timestamps come later,
and rows with equal timestamps are ordered by ascending id. -/
def tsIdOrder (a b : Entry) : Prop :=
  b.timestamp < a.timestamp ∨ (a.timestamp = b.timestamp ∧ a.id < b.id)

/-- Pasting an image twice within the same clock second. -/
def pastePath : String := joinPath FILES_DIR "paste_20250101120000.png"

/-- First paste: image bytes 1 at second 20250101120000. -/
def pasteOnce : DB × FS :=
  save_pasted_image_data dbEmpty [] 10 "20250101120000" 1 "" ""

/-- Second paste: image bytes 2, same second. -/
def pasteTwice : DB × FS :=
  save_pasted_image_data pasteOnce.1 pasteOnce.2 10 "20250101120000" 2 "" ""

/-- The attachment directory of the C2 scenario: `a.png` and its
timestamp-renamed sibling `a_20250101000000.png` both already exist. -/
def fsC2 : FS :=
  [(joinPath FILES_DIR "a.png", 1),
   (joinPath FILES_DIR "a_20250101000000.png", 2)]

/-- The database and directory of the C6 witness scenario: one file
entry whose attachment exists on disk. -/
def dbC6 : DB :=
  { rows := [{ id := 1, kind := Kind.file, content := "a.png", tags := "",
               filepath := some (joinPath FILES_DIR "a.png"), timestamp := 0,
               description := some "" }],
    nextId := 2 }

/-- Attachment directory matching `dbC6`. -/
def fsC6 : FS := [(joinPath FILES_DIR "a.png", 9)]

/-- Two notes created within the same second (equal timestamps). -/
def dbC1 : DB :=
  { rows := [{ id := 1, kind := Kind.note, content := "one", tags := "",
               filepath := none, timestamp := 100, description := none },
             { id := 2, kind := Kind.note, content := "two", tags := "",
               filepath := none, timestamp := 100, description := none }],
    nextId := 3 }

/-- A note longer than 50 characters (the spec's alphabet example). -/
def dbC4 : DB :=
  { rows := [{ id := 1, kind := Kind.note,
               content :=
                 "abcdefghijklmnopqrstuvwxyzabcdefghijklmnopqrstuvwxyz",
               tags := "", filepath := none, timestamp := 5,
               description := none }],
    nextId := 2 }

/-- The summary produced for the single row of `dbC4`: the first 50
characters plus an ellipsis. -/
def sC4 : Summary :=
  { id := 1, kind := Kind.note, date := 5,
    preview := "abcdefghijklmnopqrstuvwxyzabcdefghijklmnopqrstuvwx..." }

/-- A note whose first line contains a carriage return. -/
def entryCR : Entry :=
  { id := 1, kind := Kind.note, content := "a\rb", tags := "",
    filepath := none, timestamp := 0, description := none }

/-- Plain substring containment on character lists. -/
def isInfixList (n : List Char) : List Char → Bool
  | [] => n.isEmpty
  | c :: t => n.isPrefixOf (c :: t) || isInfixList n t

/-- Case-insensitive substring containment — the matching the claim
describes (as opposed to the LIKE-pattern matching the code performs). -/
def ciContains (needle hay : String) : Bool :=
  isInfixList (pyLower needle).data (pyLower hay).data

/-- The single-row database of the C7 scenario. -/
def entryC7 : Entry :=
  { id := 1, kind := Kind.note, content := "x", tags := "work,urgent",
    filepath := none, timestamp := 5, description := none }

/-- Database holding `entryC7`. -/
def dbC7 : DB := { rows := [entryC7], nextId := 2 }

example : pyStrip "  a " = "a" := by decide
example : pyLower " A," = " a," := by decide
example : likeContains "_" "x" = true := by decide
example : likeContains "milk" "Buy MILK" = true := by decide
example : likeContains "bread" "Buy milk" = false := by decide
example : splitext "a.png" = ("a", ".png") := by decide
example : splitext ".png" = (".png", "") := by decide
example : splitext "a.b.png" = ("a.b", ".png") := by decide

/-! ## Shared helper lemmas -/

theorem find?_append_singleton {α} (p : α → Bool) (l : List α) (x : α)
    (h : ∀ y ∈ l, p y = false) (hx : p x = true) :
    List.find? p (l ++ [x]) = some x := by
  induction l with
  | nil => simp [List.find?, hx]
  | cons a as ih =>
      have ha := h a (by simp)
      rw [List.cons_append, List.find?_cons_of_neg _ (by simp [ha])]
      exact ih (fun y hy => h y (by simp [hy]))

theorem mem_insertTs {x z : Entry} : ∀ {l : List Entry},
    z ∈ insertTs x l ↔ z = x ∨ z ∈ l := by
  intro l
  induction l with
  | nil => simp [insertTs]
  | cons y ys ih =>
      simp only [insertTs]
      split
      · simp only [List.mem_cons, ih]
        tauto
      · simp only [List.mem_cons]

theorem mem_sortTsDesc {z : Entry} : ∀ {l : List Entry},
    z ∈ sortTsDesc l ↔ z ∈ l := by
  intro l
  induction l with
  | nil => simp [sortTsDesc]
  | cons x xs ih => simp [sortTsDesc, mem_insertTs, ih]

theorem pairwise_insertTs {x : Entry} :
    ∀ {l : List Entry}, l.Pairwise tsIdOrder →
      (∀ y ∈ l, x.timestamp = y.timestamp → x.id < y.id) →
      (insertTs x l).Pairwise tsIdOrder
  | [], _, _ => by simp [insertTs]
  | y :: ys, hp, hx => by
      rcases List.pairwise_cons.mp hp with ⟨hy, hys⟩
      simp only [insertTs]
      split
      · rename_i hlt
        refine List.pairwise_cons.mpr ⟨?_, pairwise_insertTs hys
          (fun z hz hts => hx z (by simp [hz]) hts)⟩
        intro z hz
        rcases mem_insertTs.mp hz with rfl | hz2
        · exact Or.inl hlt
        · exact hy z hz2
      · rename_i hge
        push_neg at hge
        refine List.pairwise_cons.mpr ⟨?_, hp⟩
        intro z hz
        rcases List.mem_cons.mp hz with rfl | hz2
        · rcases Nat.eq_or_lt_of_le hge with heq | hlt
          · exact Or.inr ⟨heq.symm, hx z (by simp) heq.symm⟩
          · exact Or.inl hlt
        · have hyz := hy z hz2
          have hzy : z.timestamp ≤ y.timestamp := by
            rcases hyz with h | ⟨h, _⟩
            · exact Nat.le_of_lt h
            · exact Nat.le_of_eq h.symm
          rcases Nat.eq_or_lt_of_le (Nat.le_trans hzy hge) with heq | hlt
          · exact Or.inr ⟨heq.symm, hx z (by simp [hz2]) heq.symm⟩
          · exact Or.inl hlt

theorem pairwise_sortTsDesc :
    ∀ {l : List Entry}, l.Pairwise (fun a b => a.id < b.id) →
      (sortTsDesc l).Pairwise tsIdOrder
  | [], _ => by simp [sortTsDesc]
  | x :: xs, hp => by
      rcases List.pairwise_cons.mp hp with ⟨hx, hxs⟩
      exact pairwise_insertTs (pairwise_sortTsDesc hxs)
        (fun y hy _ => hx y (mem_sortTsDesc.mp hy))

theorem dropWhile_head_false {α} {p : α → Bool} :
    ∀ {l : List α} {x : α} {xs : List α},
      l.dropWhile p = x :: xs → p x = false := by
  intro l
  induction l with
  | nil => intro x xs h; simp [List.dropWhile] at h
  | cons a as ih =>
      intro x xs h
      rw [List.dropWhile_cons] at h
      by_cases hp : p a
      · rw [if_pos hp] at h
        exact ih h
      · rw [if_neg hp] at h
        cases h
        exact Bool.eq_false_iff.mpr hp

theorem splitext_concat (name : String) :
    (splitext name).1 ++ (splitext name).2 = name := by
  unfold splitext
  simp only
  split
  · exact congrArg String.mk (List.append_nil _)
  · rename_i hd bR heq
    split
    · exact congrArg String.mk (List.append_nil _)
    · have hdot := dropWhile_head_false heq
      have hd2 : hd = '.' := by simpa using hdot
      subst hd2
      apply congrArg String.mk
      have h1 := List.takeWhile_append_dropWhile
        (fun c => decide (c ≠ '.')) name.data.reverse
      rw [heq] at h1
      have h2 : name.data =
          (List.takeWhile (fun c => decide (c ≠ '.')) name.data.reverse ++
            '.' :: bR).reverse := by
        rw [h1, List.reverse_reverse]
      conv_rhs => rw [h2]
      simp [List.reverse_append, List.reverse_cons, List.append_assoc]

theorem strLen_append (s t : String) : strLen (s ++ t) = strLen s + strLen t :=
  List.length_append s.data t.data

theorem strLen_joinPath (d n : String) :
    strLen (joinPath d n) = strLen d + 1 + strLen n := by
  have h1 : strLen "/" = 1 := rfl
  calc strLen ((d ++ "/") ++ n) = strLen (d ++ "/") + strLen n :=
        strLen_append _ _
    _ = (strLen d + 1) + strLen n := by rw [strLen_append, h1]

theorem joinPath_ne_of_len {d n1 n2 : String} (h : strLen n1 ≠ strLen n2) :
    joinPath d n1 ≠ joinPath d n2 := by
  intro he
  apply h
  have h2 := congrArg strLen he
  rw [strLen_joinPath, strLen_joinPath] at h2
  omega

/-! ## Claim C3 -/

/-- Claim C3 (amended): for every id with no corresponding entry in the
database, the `SELECT ... WHERE id = ?` of the selection callback finds
no row and the callback silently does nothing — it neither displays an
entry nor reports any error (the code's `if entry:` has no else
branch), rather than failing with a NotFound error as claimed. -/
theorem C3_missing_id_silent_noop :
    ∀ (db : DB) (id : Nat), get_entry db id = none →
      on_entry_select db id = SelectOutcome.silentNoop := by
  intro db id h
  simp [on_entry_select, h]

/-- Witness for C3 at a concrete input: the empty database and id 1. -/
theorem C3_missing_id_silent_noop_witness :
    on_entry_select dbEmpty 1 = SelectOutcome.silentNoop :=
  C3_missing_id_silent_noop dbEmpty 1 rfl

/-- Claim C3 counterexample: selecting the absent id 1 in the empty
database shows no error dialog at all (the claim requires a NotFound
failure rather than silently doing nothing). -/
theorem C3_counterexample :
    ¬ ∃ msg, on_entry_select dbEmpty 1 = SelectOutcome.errorShown msg := by
  rintro ⟨msg, h⟩
  rw [show on_entry_select dbEmpty 1 = SelectOutcome.silentNoop from rfl] at h
  exact SelectOutcome.noConfusion h

/-! ## Claim C5 -/

/-- Claim C5 (amended): content that is empty after trimming aborts
`add_note` with the validation warning and writes no row (the database
is returned unchanged, so the entry count is unchanged); non-empty
trimmed content appends exactly one row with kind=note, NULL filepath
and description, and the tags string trimmed and lowercased. -/
theorem C5_add_note_validation :
    ∀ (db : DB) (now : Nat) (c t : String),
      (pyStrip c = "" → add_note db now c t = (db, none)) ∧
      (pyStrip c ≠ "" →
        add_note db now c t =
          ({ rows := db.rows ++
              [{ id := db.nextId, kind := Kind.note, content := pyStrip c,
                 tags := pyLower (pyStrip t), filepath := none,
                 timestamp := now, description := none }],
             nextId := db.nextId + 1 },
           some db.nextId)) := by
  intro db now c t
  constructor
  · intro h
    simp [add_note, h]
  · intro h
    simp [add_note, h]

/-- Witness for C5: an all-whitespace note is rejected with the database
unchanged; a valid note with tags " A " is stored. -/
theorem C5_add_note_validation_witness :
    add_note dbEmpty 0 " " "t" = (dbEmpty, none) ∧
    add_note dbEmpty 0 "x" " A " =
      ({ rows := dbEmpty.rows ++
          [{ id := dbEmpty.nextId, kind := Kind.note, content := pyStrip "x",
             tags := pyLower (pyStrip " A "), filepath := none,
             timestamp := 0, description := none }],
         nextId := dbEmpty.nextId + 1 },
       some dbEmpty.nextId) :=
  ⟨(C5_add_note_validation dbEmpty 0 " " "t").1 (by decide),
   (C5_add_note_validation dbEmpty 0 "x" " A ").2 (by decide)⟩

/-- Claim C5 counterexample: with the tags string " A " the stored tags
value is "a" (trimmed and lowercased), not " a " (the tags string merely
lowercased) as the claim states. -/
theorem C5_counterexample :
    ((add_note dbEmpty 0 "x" " A ").1.rows.map (fun e => e.tags)) = ["a"] ∧
    pyLower " A " = " a " ∧ ("a" : String) ≠ " a " :=
  ⟨by decide, by decide, by decide⟩

/-! ## Claim C8 -/

/-- Claim C8 (amended): for content that is non-empty after trimming,
`create_note` followed by `get_entry` on the returned id yields the
trimmed content, the trimmed-and-lowercased tags, and kind=note,
provided no existing row already carries the next AUTOINCREMENT id. -/
theorem C8_note_roundtrip :
    ∀ (db : DB) (now : Nat) (c t : String),
      (∀ e ∈ db.rows, e.id < db.nextId) → pyStrip c ≠ "" →
      (add_note db now c t).2 = some db.nextId ∧
      get_entry (add_note db now c t).1 db.nextId =
        some { id := db.nextId, kind := Kind.note, content := pyStrip c,
               tags := pyLower (pyStrip t), filepath := none,
               timestamp := now, description := none } := by
  intro db now c t hids hc
  constructor
  · simp [add_note, hc]
  · have hrows : (add_note db now c t).1.rows = db.rows ++
        [{ id := db.nextId, kind := Kind.note, content := pyStrip c,
           tags := pyLower (pyStrip t), filepath := none,
           timestamp := now, description := none }] := by
      simp [add_note, hc]
    rw [get_entry, hrows]
    apply find?_append_singleton
    · intro y hy
      have hlt := hids y hy
      simp [Nat.ne_of_lt hlt]
    · simp

/-- Witness for C8: storing "hi" with tags "Work" in the empty database
and reading id 1 back. -/
theorem C8_note_roundtrip_witness :
    (add_note dbEmpty 3 "hi" "Work").2 = some 1 ∧
    get_entry (add_note dbEmpty 3 "hi" "Work").1 1 =
      some { id := 1, kind := Kind.note, content := "hi", tags := "work",
             filepath := none, timestamp := 3, description := none } := by
  have h := C8_note_roundtrip dbEmpty 3 "hi" "Work"
    (by intro e he; simp [dbEmpty] at he) (by decide)
  have h2 := h.2
  rw [show dbEmpty.nextId = 1 from rfl] at h2
  refine ⟨h.1, ?_⟩
  rw [h2]
  decide

/-- Claim C8 counterexample: content " a " (non-empty) round-trips to
the trimmed "a", not to the same string " a " as the claim states. -/
theorem C8_counterexample :
    ((get_entry (add_note dbEmpty 7 " a " "").1 1).map
        (fun e => e.content)) = some "a" ∧
    ((get_entry (add_note dbEmpty 7 " a " "").1 1).map
        (fun e => e.content)) ≠ some " a " :=
  ⟨by decide, by decide⟩

/-! ## Claim C10 -/

/-- Claim C10 (confirmed): `save_pasted_image_data` always stores at
`FILES_DIR/paste_<timestamp>.png`, a path determined solely by the
clock second, with no collision rename; pasting twice within one second
leaves the shared path holding the second image's bytes (the first
image's bytes are no longer reachable at any path) while both database
rows reference that same filepath. -/
theorem C10_paste_path_overwrite :
    (∀ (db : DB) (fs : FS) (now : Nat) (ts : String) (b : Nat)
        (tg d : String),
      (save_pasted_image_data db fs now ts b tg d).2 =
        fsWrite fs (joinPath FILES_DIR ("paste_" ++ ts ++ ".png")) b ∧
      (save_pasted_image_data db fs now ts b tg d).1.rows =
        db.rows ++
          [{ id := db.nextId, kind := Kind.file,
             content := "paste_" ++ ts ++ ".png",
             tags := pyLower (pyStrip tg),
             filepath := some (joinPath FILES_DIR ("paste_" ++ ts ++ ".png")),
             timestamp := now, description := some (pyStrip d) }]) ∧
    (fsLookup pasteTwice.2 pastePath = some 2 ∧ (2 : Nat) ≠ 1 ∧
     pasteTwice.1.rows.map (fun e => e.filepath) =
       [some pastePath, some pastePath]) := by
  refine ⟨fun db fs now ts b tg d => ⟨rfl, rfl⟩, ?_, by decide, ?_⟩
  · decide
  · decide

/-! ## Claim C2 -/

theorem fsLookup_write_ne (fs : FS) (p q : String) (b : Nat) (h : p ≠ q) :
    fsLookup (fsWrite fs p b) q = fsLookup fs q := by
  rw [fsWrite, fsLookup, List.find?_cons_of_neg _ (by simp [h])]
  rfl

/-- Claim C2 (amended): when the target base filename already exists,
the stored filename is the timestamp-suffixed name, which differs from
the colliding base filename, and the attachment stored under the base
filename keeps its bytes; moreover, when the timestamp-suffixed name is
not itself already present, no existing attachment's bytes change.
(When the suffixed name is already present — two copies of the same
base name within one clock second — it is overwritten, which is what
refutes the claim as stated.) -/
theorem C2_collision_rename :
    ∀ (fs : FS) (b : Nat) (filename ts : String),
      fsExists fs (joinPath FILES_DIR filename) = true →
      (copy_file_to_storage fs b filename ts).2 ≠
          joinPath FILES_DIR filename ∧
      fsLookup (copy_file_to_storage fs b filename ts).1
          (joinPath FILES_DIR filename) =
        fsLookup fs (joinPath FILES_DIR filename) ∧
      (fsExists fs (copy_file_to_storage fs b filename ts).2 = false →
        ∀ p, fsExists fs p = true →
          fsLookup (copy_file_to_storage fs b filename ts).1 p =
            fsLookup fs p) := by
  intro fs b filename ts h
  have hstored : (copy_file_to_storage fs b filename ts).2 =
      joinPath FILES_DIR
        ((splitext filename).1 ++ "_" ++ ts ++ (splitext filename).2) := by
    simp [copy_file_to_storage, h]
  have hfs : (copy_file_to_storage fs b filename ts).1 =
      fsWrite fs ((copy_file_to_storage fs b filename ts).2) b := rfl
  have hne : (copy_file_to_storage fs b filename ts).2 ≠
      joinPath FILES_DIR filename := by
    rw [hstored]
    apply joinPath_ne_of_len
    have h1 : strLen ((splitext filename).1 ++ "_" ++ ts ++
        (splitext filename).2) =
        strLen (splitext filename).1 + 1 + strLen ts +
          strLen (splitext filename).2 := by
      rw [strLen_append, strLen_append, strLen_append]
      have hu : strLen "_" = 1 := rfl
      omega
    have h2 : strLen filename =
        strLen (splitext filename).1 + strLen (splitext filename).2 := by
      conv_lhs => rw [← splitext_concat filename]
      rw [strLen_append]
    omega
  refine ⟨hne, ?_, ?_⟩
  · rw [hfs]
    exact fsLookup_write_ne fs _ _ b hne
  · intro hfresh p hp
    rw [hfs]
    apply fsLookup_write_ne
    intro heq
    rw [heq] at hfresh
    rw [hfresh] at hp
    exact Bool.noConfusion hp

/-- Witness for C2 at a concrete input: copying `a.png` (bytes 3) with a
fresh timestamp suffix renames it and leaves the stored `a.png` intact. -/
theorem C2_collision_rename_witness :
    (copy_file_to_storage fsC2 3 "a.png" "T").2 ≠
        joinPath FILES_DIR "a.png" ∧
    fsLookup (copy_file_to_storage fsC2 3 "a.png" "T").1
        (joinPath FILES_DIR "a.png") =
      fsLookup fsC2 (joinPath FILES_DIR "a.png") :=
  ⟨(C2_collision_rename fsC2 3 "a.png" "T" (by decide)).1,
   (C2_collision_rename fsC2 3 "a.png" "T" (by decide)).2.1⟩

/-- Claim C2 counterexample: copying `a.png` during the same second that
produced the existing `a_20250101000000.png` stores at exactly that
existing attachment's name and overwrites its bytes (2 becomes 3),
refuting "distinct from every existing attachment name" and "no
existing attachment file's bytes are overwritten". -/
theorem C2_counterexample :
    (copy_file_to_storage fsC2 3 "a.png" "20250101000000").2 =
        joinPath FILES_DIR "a_20250101000000.png" ∧
    fsExists fsC2 (copy_file_to_storage fsC2 3 "a.png" "20250101000000").2 =
        true ∧
    fsLookup fsC2 (joinPath FILES_DIR "a_20250101000000.png") = some 2 ∧
    fsLookup (copy_file_to_storage fsC2 3 "a.png" "20250101000000").1
        (joinPath FILES_DIR "a_20250101000000.png") = some 3 :=
  ⟨by decide, by decide, by decide, by decide⟩

/-! ## Claim C6 -/

theorem fsLookup_remove_self (fs : FS) (p : String) :
    fsLookup (fsRemove fs p) p = none := by
  have h : (fsRemove fs p).find? (fun kv => kv.1 == p) = none := by
    apply List.find?_eq_none.mpr
    intro kv hkv
    have h2 := (List.mem_filter.mp hkv).2
    simp only [decide_eq_true_eq] at h2
    simp [h2]
  rw [fsLookup, h]
  rfl

/-- Claim C6 (confirmed): deleting an existing entry always removes its
database row — a subsequent `get_entry` on that id finds nothing — and
for kind=file entries whose attachment exists on disk: if the OS
removal succeeds the attachment is gone from its stored path, while if
it fails the error is reported (dialog shown) and the row is still
deleted, the directory left unchanged. -/
theorem C6_delete_removes_row :
    ∀ (db : DB) (fs : FS) (id : Nat) (ok : Bool) (e : Entry),
      get_entry db id = some e →
      get_entry (delete_entry db fs id ok).1 id = none ∧
      (∀ p, e.kind = Kind.file → e.filepath = some p →
        fsExists fs p = true → ok = true →
        fsLookup (delete_entry db fs id ok).2.1 p = none) ∧
      (∀ p, e.kind = Kind.file → e.filepath = some p →
        fsExists fs p = true → ok = false →
        (delete_entry db fs id ok).2.2 = true ∧
        (delete_entry db fs id ok).2.1 = fs) := by
  intro db fs id ok e he
  have hrows : (delete_entry db fs id ok).1.rows =
      db.rows.filter (fun x => x.id ≠ id) := rfl
  refine ⟨?_, ?_, ?_⟩
  · rw [get_entry, hrows]
    apply List.find?_eq_none.mpr
    intro x hx
    have hm := (List.mem_filter.mp hx).2
    simp only [decide_eq_true_eq] at hm
    simp [hm]
  · intro p hk hp hex hok
    subst hok
    obtain ⟨eid, ek, ec, etg, efp, ets, ed⟩ := e
    simp only at hk hp
    subst hk
    subst hp
    have hfs1 : (delete_entry db fs id true).2.1 = fsRemove fs p := by
      unfold delete_entry
      rw [he]
      simp [hex]
    rw [hfs1]
    exact fsLookup_remove_self fs p
  · intro p hk hp hex hok
    subst hok
    obtain ⟨eid, ek, ec, etg, efp, ets, ed⟩ := e
    simp only at hk hp
    subst hk
    subst hp
    have hfs1 : (delete_entry db fs id false).2 = (fs, true) := by
      unfold delete_entry
      rw [he]
      simp [hex]
    rw [hfs1]
    exact ⟨rfl, rfl⟩

/-- Witness for C6 at a concrete input: deleting entry 1 while the OS
file removal fails still removes the row, and the failure is reported. -/
theorem C6_delete_removes_row_witness :
    get_entry (delete_entry dbC6 fsC6 1 false).1 1 = none ∧
    (delete_entry dbC6 fsC6 1 false).2.2 = true ∧
    (delete_entry dbC6 fsC6 1 false).2.1 = fsC6 := by
  have h := C6_delete_removes_row dbC6 fsC6 1 false
    { id := 1, kind := Kind.file, content := "a.png", tags := "",
      filepath := some (joinPath FILES_DIR "a.png"), timestamp := 0,
      description := some "" } (by decide)
  have h3 := h.2.2 (joinPath FILES_DIR "a.png") rfl rfl (by decide) rfl
  exact ⟨h.1, h3.1, h3.2⟩

/-! ## Claim C1 -/

/-- Claim C1 (amended): the listing is ordered by timestamp descending,
and two entries with equal timestamps appear in id-ascending (table
scan / insertion) order — the oldest insertion first, not the newest as
claimed — assuming the table's rows carry strictly increasing ids. -/
theorem C1_listing_order :
    ∀ (db : DB) (searchRaw tagRaw : String),
      db.rows.Pairwise (fun a b => a.id < b.id) →
      (load_entries db searchRaw tagRaw).Pairwise
        (fun a b => b.date < a.date ∨ (a.date = b.date ∧ a.id < b.id)) := by
  intro db searchRaw tagRaw h
  rw [load_entries, List.pairwise_map, load_entries_rows]
  exact pairwise_sortTsDesc (h.filter _)

/-- Witness for C1 at a concrete input: the two-row database with a
timestamp tie satisfies the amended ordering. -/
theorem C1_listing_order_witness :
    (load_entries dbC1 "" "").Pairwise
      (fun a b => b.date < a.date ∨ (a.date = b.date ∧ a.id < b.id)) :=
  C1_listing_order dbC1 "" "" (by decide)

/-- Claim C1 counterexample: with two entries sharing timestamp 100,
the listing returns id 1 before id 2 — equal-timestamp entries are NOT
in id-descending order as the claim states. -/
theorem C1_counterexample :
    ¬ (load_entries dbC1 "" "").Pairwise
        (fun a b => a.date = b.date → b.id < a.id) := by
  decide

/-! ## Claim C4 -/

theorem str_append_empty (s : String) : s ++ "" = s :=
  congrArg String.mk (List.append_nil s.data)

/-- Claim C4 (amended): every listed summary comes from a stored row;
for note rows the preview is the first line of the content with
carriage-return characters removed, truncated to 50 characters, with an
ellipsis appended exactly when the content exceeds 50 characters or
contains a newline; for file rows the preview is the stored base
filename (the content column) verbatim. -/
theorem C4_preview :
    ∀ (db : DB) (searchRaw tagRaw : String) (s : Summary),
      s ∈ load_entries db searchRaw tagRaw →
      ∃ e, e ∈ db.rows ∧ s.id = e.id ∧ s.kind = e.kind ∧
        s.preview = makePreview e ∧
        (e.kind = Kind.note → makePreview e =
          strTake 50 (stripCR (firstLine e.content)) ++
            (if 50 < strLen e.content ∨ strHasNL e.content = true
             then "..." else "")) ∧
        (e.kind = Kind.file → makePreview e = e.content) := by
  intro db searchRaw tagRaw s hs
  rw [load_entries] at hs
  rcases List.mem_map.mp hs with ⟨e, he, rfl⟩
  rw [load_entries_rows] at he
  have he2 := (List.mem_filter.mp (mem_sortTsDesc.mp he)).1
  refine ⟨e, he2, rfl, rfl, rfl, ?_, ?_⟩
  · intro hk
    simp only [makePreview, hk]
    split
    · rfl
    · exact (str_append_empty _).symm
  · intro hk
    simp only [makePreview, hk]

/-- Witness for C4 at a concrete input: the 52-character alphabet note
is previewed as its first 50 characters plus an ellipsis. -/
theorem C4_preview_witness :
    ∃ e, e ∈ dbC4.rows ∧ sC4.id = e.id ∧ sC4.kind = e.kind ∧
      sC4.preview = makePreview e ∧
      (e.kind = Kind.note → makePreview e =
        strTake 50 (stripCR (firstLine e.content)) ++
          (if 50 < strLen e.content ∨ strHasNL e.content = true
           then "..." else "")) ∧
      (e.kind = Kind.file → makePreview e = e.content) :=
  C4_preview dbC4 "" "" sC4 (by decide)

/-- Claim C4 counterexample: for content "a\rb" the computed preview is
"ab" — the code deletes the carriage return — whereas the claim's
"first line truncated to 50 characters" is "a\rb". -/
theorem C4_counterexample :
    makePreview entryCR = "ab" ∧
    strTake 50 (firstLine "a\rb") = "a\rb" ∧
    makePreview entryCR ≠ strTake 50 (firstLine "a\rb") :=
  ⟨by decide, by decide, by decide⟩

/-! ## Claim C7 -/

theorem entryMatches_iff (search tagf : String) (e : Entry)
    (hS : search ≠ "") (hT : tagf ≠ "") :
    entryMatches search tagf e = true ↔
      ((likeContains search e.content = true ∨
        (∃ d, e.description = some d ∧ likeContains search d = true)) ∧
       likeContains tagf e.tags = true) := by
  rw [entryMatches]
  cases hd : e.description with
  | none => simp [hS, hT]
  | some d => simp [hS, hT]

/-- Claim C7 (amended): both filter strings are trimmed first (and the
tag filter lowercased); a filter that is empty after trimming means no
filter; a non-empty search term selects exactly the entries whose
content or (non-NULL) description matches the SQL LIKE pattern
`%term%` — ASCII-case-insensitively, with `%` and `_` acting as
wildcards — and a non-empty tag filter likewise LIKE-matches the
stored tags string; the filters combine with logical AND. -/
theorem C7_filters :
    ∀ (db : DB) (S T : String) (e : Entry),
      (pyStrip S ≠ "" → pyLower (pyStrip T) ≠ "" →
        (e ∈ load_entries_rows db S T ↔
          e ∈ db.rows ∧
          (likeContains (pyStrip S) e.content = true ∨
            (∃ d, e.description = some d ∧
              likeContains (pyStrip S) d = true)) ∧
          likeContains (pyLower (pyStrip T)) e.tags = true)) ∧
      (pyStrip S = "" → pyLower (pyStrip T) = "" →
        (e ∈ load_entries_rows db S T ↔ e ∈ db.rows)) := by
  intro db S T e
  constructor
  · intro hS hT
    rw [load_entries_rows, mem_sortTsDesc, List.mem_filter,
      entryMatches_iff (pyStrip S) (pyLower (pyStrip T)) e hS hT]
  · intro hS hT
    rw [load_entries_rows, mem_sortTsDesc, List.mem_filter, hS, hT]
    simp [entryMatches]

/-- Witness for C7 at a concrete input: search "x" and tag filter "urg"
select the entry with content "x" and tags "work,urgent". -/
theorem C7_filters_witness :
    entryC7 ∈ load_entries_rows dbC7 "x" "urg" :=
  ((C7_filters dbC7 "x" "urg" entryC7).1 (by decide) (by decide)).mpr
    ⟨by decide, Or.inl (by decide), by decide⟩

/-- Claim C7 counterexample: with search term "_" (a LIKE single-char
wildcard) and tag filter "urg", the query returns the entry with
content "x" even though neither its content nor its description
contains "_" as a substring — refuting the claim's "exactly the entries
whose content or description contains S". -/
theorem C7_counterexample :
    ¬ (∀ e ∈ load_entries_rows dbC7 "_" "urg",
        ciContains "_" e.content = true ∨
        (∃ d, e.description = some d ∧ ciContains "_" d = true)) := by
  intro h
  have h1 := h entryC7 (by decide)
  rcases h1 with h1 | ⟨d, hd, _⟩
  · exact absurd h1 (by decide)
  · rw [show entryC7.description = (none : Option String) from rfl] at hd
    exact Option.noConfusion hd

/-! ## Claim C9 -/

theorem copy_stored_shape (fs : FS) (b : Nat) (f ts : String) :
    ∃ n, (copy_file_to_storage fs b f ts).2 = joinPath FILES_DIR n := by
  by_cases h : fsExists fs (joinPath FILES_DIR f) = true
  · exact ⟨(splitext f).1 ++ "_" ++ ts ++ (splitext f).2,
      by simp [copy_file_to_storage, h]⟩
  · exact ⟨f, by simp [copy_file_to_storage, h]⟩

/-- Claim C9 (confirmed): every operation preserves the invariant that
kind=file rows have a filepath of the form `FILES_DIR/<name>` — a path
inside the managed attachment directory, never the external source
path — and kind=note rows have a NULL filepath. -/
theorem C9_path_invariant :
    ∀ (w w2 : DB × FS), pathInv w.1 → Step w w2 → pathInv w2.1 := by
  intro w w2 hinv hstep
  cases hstep with
  | addNote db fs now c t =>
      intro e he
      by_cases hc : pyStrip c = ""
      · rw [show (add_note db now c t).1 = db from by simp [add_note, hc]]
          at he
        exact hinv e he
      · have hrows : (add_note db now c t).1.rows = db.rows ++
            [{ id := db.nextId, kind := Kind.note, content := pyStrip c,
               tags := pyLower (pyStrip t), filepath := none,
               timestamp := now, description := none }] := by
          simp [add_note, hc]
        rw [hrows] at he
        rcases List.mem_append.mp he with h | h
        · exact hinv e h
        · simp only [List.mem_singleton] at h
          subst h
          exact ⟨fun hk => Kind.noConfusion hk, fun _ => rfl⟩
  | addFile db fs now ts name b tg d =>
      intro e he
      have hrows : (add_file db fs now ts name b tg d).1.rows = db.rows ++
          [{ id := db.nextId, kind := Kind.file, content := name,
             tags := pyLower (pyStrip tg),
             filepath := some (copy_file_to_storage fs b name ts).2,
             timestamp := now, description := some (pyStrip d) }] := rfl
      rw [hrows] at he
      rcases List.mem_append.mp he with h | h
      · exact hinv e h
      · simp only [List.mem_singleton] at h
        subst h
        refine ⟨fun _ => ?_, fun hk => Kind.noConfusion hk⟩
        rcases copy_stored_shape fs b name ts with ⟨n, hn⟩
        exact ⟨n, by rw [hn]⟩
  | pasteImage db fs now ts b tg d =>
      intro e he
      have hrows : (save_pasted_image_data db fs now ts b tg d).1.rows =
          db.rows ++
          [{ id := db.nextId, kind := Kind.file,
             content := "paste_" ++ ts ++ ".png",
             tags := pyLower (pyStrip tg),
             filepath :=
               some (joinPath FILES_DIR ("paste_" ++ ts ++ ".png")),
             timestamp := now, description := some (pyStrip d) }] := rfl
      rw [hrows] at he
      rcases List.mem_append.mp he with h | h
      · exact hinv e h
      · simp only [List.mem_singleton] at h
        subst h
        exact ⟨fun _ => ⟨_, rfl⟩, fun hk => Kind.noConfusion hk⟩
  | del db fs id ok =>
      intro e he
      have hrows : (delete_entry db fs id ok).1.rows =
          db.rows.filter (fun x => x.id ≠ id) := rfl
      rw [hrows] at he
      exact hinv e (List.mem_filter.mp he).1

/-- Witness for C9 at a concrete input: starting from the empty state
and saving one note preserves the filepath invariant. -/
theorem C9_path_invariant_witness :
    pathInv ((add_note dbEmpty 0 "x" "").1) :=
  C9_path_invariant (dbEmpty, []) ((add_note dbEmpty 0 "x" "").1, [])
    (by intro e he; simp [dbEmpty] at he)
    (Step.addNote dbEmpty [] 0 "x" "")
